import Mathlib

/-!
# Board support package of the "Fly and Shoot" game (EK-LM3S811, QV kernel)

A shallow embedding of `examples/arm-cm/game_ek-lm3s811/qv/bsp.c`:
the ADC sequence-3 interrupt handler (low-pass filter, wheel position,
button debouncing, event posting), the SysTick handler, the start-up callback
`QF_onStartup` and the assertion callback `Q_onAssert`.

Machine words of type `uint32_t` are natural numbers below `2 ^ 32`, values of
type `int` are integers in the two's complement range of 32 bits; every
wrap-around of the C code is written out.
-/

namespace Bsp

/-! ## Machine arithmetic -/

/-- The number of values of a `uint32_t`. -/
def WORD : Nat := 2 ^ 32

/-- Conversion of an integer to `uint32_t` (reduction modulo `2 ^ 32`). -/
def toU32 (i : Int) : Nat := (i % 2 ^ 32).toNat

/-- Conversion to `int`: the two's complement value of the low 32 bits. -/
def toInt32 (i : Int) : Int :=
  if i % 2 ^ 32 < 2 ^ 31 then i % 2 ^ 32 else i % 2 ^ 32 - 2 ^ 32

/-- The cast `(int)u` of a `uint32_t`. -/
def castInt (u : Nat) : Int := toInt32 (u : Int)

/-- Subtraction of two `int` values, wrapping in 32 bits. -/
def subInt (a b : Int) : Int := toInt32 (a - b)

/-- Addition of two `int` values, wrapping in 32 bits. -/
def addInt (a b : Int) : Int := toInt32 (a + b)

/-- The unary `~` on a `uint32_t`. -/
def notU32 (u : Nat) : Nat := (u % WORD) ^^^ (WORD - 1)

/-- Subtraction of two `uint32_t` values. -/
def subU32 (a b : Nat) : Nat := toU32 ((a : Int) - (b : Int))

/-- Multiplication of two `uint32_t` values. -/
def mulU32 (a b : Nat) : Nat := (a * b) % WORD

/-- The arithmetic right shift `i >> n` of an `int`. -/
def asrInt (i : Int) (n : Nat) : Int := Int.shiftRight i n

/-- The compound assignment `u += i` of an `int` to a `uint32_t`. -/
def addAssignU32 (u : Nat) (i : Int) : Nat := toU32 ((u : Int) + i)

/-! ## Constants of the file -/

/-- The macro `USER_LED`. -/
def USER_LED : Nat := 1 <<< 5

/-- The macro `USER_BTN`. -/
def USER_BTN : Nat := 1 <<< 4

/-- The macro `ADC_SSFSTAT0_EMPTY`. -/
def ADC_SSFSTAT0_EMPTY : Nat := 0x00000100

/-- The source line of the `Q_ASSERT` in `ADCSeq3_IRQHandler`. -/
def ASSERT_LINE : Nat := 113

/-- The active objects events are posted to. -/
inductive Actor where
  | AO_Tunnel
  | AO_Ship
  | AO_Missile
  deriving DecidableEq, Repr

/-- The signals posted by the interrupt handlers of the file. -/
inductive Signal where
  | TIME_TICK_SIG
  | PLAYER_SHIP_MOVE_SIG
  | PLAYER_TRIGGER_SIG
  | TAKE_OFF_SIG
  deriving DecidableEq, Repr

/-- One call `QACTIVE_POST_ISR(act, sig, par)`. -/
structure Post where
  act : Actor
  sig : Signal
  par : Nat
  deriving DecidableEq, Repr

/-- Constants of `bsp.h` and `game.h` used by the handler: the macros
`BSP_SCREEN_HEIGHT` and `GAME_SHIP_X`. -/
structure Config where
  BSP_SCREEN_HEIGHT : Nat
  GAME_SHIP_X : Nat
  deriving DecidableEq, Repr

/-- The configuration of the EK-LM3S811 board: a 96x16 display. -/
def boardConfig (shipX : Nat) : Config := ⟨16, shipX⟩

/-! ## The ADC sequence-3 interrupt handler -/

/-- The `static struct ButtonsDebouncing` of the handler. -/
structure ButtonsDebouncing where
  depressed : Nat
  previous : Nat
  deriving DecidableEq, Repr

/-- The function-static variables of `ADCSeq3_IRQHandler`. -/
structure Statics where
  adcLPS : Nat
  wheel : Nat
  buttons : ButtonsDebouncing
  deriving DecidableEq, Repr

/-- The initial values of the static variables:
`adcLPS = 0U`, `wheel = 0U`, `buttons = { ~0U, ~0U }`. -/
def initStatics : Statics := ⟨0, 0, ⟨notU32 0, notU32 0⟩⟩

/-- The peripheral registers one invocation of the handler reads:
`ADC->SSFSTAT3`, `ADC->SSFIFO3` and `GPIOC->DATA`. -/
structure Regs where
  SSFSTAT3 : Nat
  SSFIFO3 : Nat
  GPIOC_DATA : Nat
  deriving DecidableEq, Repr

/-- How an invocation of a handler ends: it returns to the interrupted code,
or the system is reset from `Q_onAssert` called with the location `loc`. -/
inductive Ending where
  | returns
  | systemReset (loc : Nat)
  deriving DecidableEq, Repr

/-- The callback `Q_onAssert(module, loc)`: both arguments are ignored and
`NVIC_SystemReset()` is called, which does not return. -/
def Q_onAssert (loc : Nat) : Ending := Ending.systemReset loc

/-- What one invocation of the handler does: the new static variables, the
events posted (in order), the value written to `ADC->ISC`, and how the
invocation ends. -/
structure Outcome where
  statics : Statics
  posts : List Post
  iscWrite : Nat
  ending : Ending
  deriving DecidableEq, Repr

/-- Line 120: `adcLPS += (((int)tmp - (int)adcLPS + 4) >> 3)`. -/
def lowPass (tmp adcLPS : Nat) : Nat :=
  addAssignU32 adcLPS (asrInt (addInt (subInt (castInt tmp) (castInt adcLPS)) 4) 3)

/-- Line 123: `(((1U << 10) - adcLPS)*(BSP_SCREEN_HEIGHT - 2U)) >> 10`. -/
def wheelPos (height adcLPS : Nat) : Nat :=
  (mulU32 (subU32 (1 <<< 10) adcLPS) (subU32 height 2)) >>> 10

/-- Line 126: the event parameter `((tmp << 8) | GAME_SHIP_X)`. -/
def shipMovePar (shipX tmp : Nat) : Nat :=
  (((tmp <<< 8) % WORD) ||| shipX) % WORD

/-- Lines 135-138: the debouncing of the buttons from the inverted port
reading `current`. -/
def debounce (b : ButtonsDebouncing) (current : Nat) : ButtonsDebouncing :=
  let depressed1 := b.depressed ||| (b.previous &&& current)
  let depressed2 := depressed1 &&& (b.previous ||| current)
  { depressed := depressed2, previous := current }

/-- Line 113: the asserted expression
`(ADC->SSFSTAT3 & ADC_SSFSTAT0_EMPTY) == 0`. -/
def dataReady (r : Regs) : Bool :=
  (r.SSFSTAT3 % WORD) &&& ADC_SSFSTAT0_EMPTY == 0

/-- The handler `ADCSeq3_IRQHandler`. The failing `Q_ASSERT` calls
`Q_onAssert`, which resets the system and does not return. -/
def ADCSeq3_IRQHandler (cfg : Config) (st : Statics) (r : Regs) : Outcome :=
  let isc := 1 <<< 3
  if dataReady r = false then
    { statics := st, posts := [], iscWrite := isc, ending := Q_onAssert ASSERT_LINE }
  else
    let tmp := r.SSFIFO3 % WORD
    let adcLPS := lowPass tmp st.adcLPS
    let tmp := wheelPos cfg.BSP_SCREEN_HEIGHT adcLPS
    let movePosts :=
      if tmp ≠ st.wheel then
        [Post.mk Actor.AO_Ship Signal.PLAYER_SHIP_MOVE_SIG (shipMovePar cfg.GAME_SHIP_X tmp)]
      else []
    let wheel := if tmp ≠ st.wheel then tmp else st.wheel
    let current := notU32 r.GPIOC_DATA
    let tmp := st.buttons.depressed
    let buttons := debounce st.buttons current
    let tmp := tmp ^^^ buttons.depressed
    let trigPosts :=
      if (tmp &&& USER_BTN) ≠ 0 then
        if (buttons.depressed &&& USER_BTN) ≠ 0 then
          [Post.mk Actor.AO_Ship Signal.PLAYER_TRIGGER_SIG 0,
           Post.mk Actor.AO_Tunnel Signal.PLAYER_TRIGGER_SIG 0]
        else []
      else []
    { statics := { adcLPS := adcLPS, wheel := wheel, buttons := buttons },
      posts := movePosts ++ trigPosts, iscWrite := isc, ending := Ending.returns }

/-- The static variables before invocation `n` (counted from 0) of the
handler, when the invocations read the registers `inp 0`, `inp 1`, ...;
`none` once an invocation has ended in a system reset. -/
def samplerStatics (cfg : Config) (st : Statics) (inp : Nat → Regs) : Nat → Option Statics
  | 0 => some st
  | n + 1 =>
    match samplerStatics cfg st inp n with
    | none => none
    | some s =>
      match (ADCSeq3_IRQHandler cfg s (inp n)).ending with
      | Ending.returns => some (ADCSeq3_IRQHandler cfg s (inp n)).statics
      | Ending.systemReset _ => none

/-- The outcome of invocation `n` (counted from 0) of the handler. -/
def samplerOutcome (cfg : Config) (st : Statics) (inp : Nat → Regs) (n : Nat) : Option Outcome :=
  (samplerStatics cfg st inp n).map (fun s => ADCSeq3_IRQHandler cfg s (inp n))

/-- The first-order recurrence of the filter over the integers, started at 0:
`y (k + 1) = y k + floor ((x k - y k + 4) / 8)`. -/
def iirRecurrence (x : Nat → Int) : Nat → Int
  | 0 => 0
  | n + 1 => iirRecurrence x n + (x n - iirRecurrence x n + 4) / 8

/-- How far the smoothed value `y` is from the sample `x`; a value at or below
the sample counts one more than the difference, so that the filter stands
still exactly when the result is at most 4. -/
def deviation (x y : Nat) : Nat := if y ≤ x then x - y + 1 else y - x

/-- What one step of the filter with a constant sample does to `deviation`. -/
def shrink (d : Nat) : Nat := d - (d + 3) / 8

/-- The events of a list with the signal `sig`. -/
def postsOf (sig : Signal) (ps : List Post) : List Post :=
  ps.filter (fun p => decide (p.sig = sig))

/-- The register readings of a scenario: in invocation `k` the FIFO holds the
sample `adc k` (its status register reads 0) and the port reads the entry `k`
of `masks` (0 past the end of the list). -/
def scenarioInput (adc : Nat → Nat) (masks : List Nat) (k : Nat) : Regs :=
  ⟨0, adc k, masks.getD k 0⟩

/-! ## The other interrupt handlers -/

/-- The handler `SysTick_Handler`: the events posted after `QF_tickXISR(0U)`. -/
def SysTick_Handler : List Post :=
  [Post.mk Actor.AO_Tunnel Signal.TIME_TICK_SIG 0,
   Post.mk Actor.AO_Ship Signal.TIME_TICK_SIG 0,
   Post.mk Actor.AO_Missile Signal.TIME_TICK_SIG 0]

/-- The handler `GPIOPortA_IRQHandler`. -/
def GPIOPortA_IRQHandler : List Post :=
  [Post.mk Actor.AO_Tunnel Signal.TAKE_OFF_SIG 0]

/-! ## Start-up -/

/-- The interrupt sources named in the file. -/
inductive IRQn where
  | ADCSeq3_IRQn
  | SysTick_IRQn
  | GPIOPortA_IRQn
  deriving DecidableEq, Repr

/-- The enumeration `KernelAwareISRs`, over the port constant
`QF_AWARE_ISR_CMSIS_PRI`. -/
def ADCSEQ3_PRIO (qfAwarePri : Nat) : Nat := qfAwarePri

/-- The second enumerator of `KernelAwareISRs`. -/
def GPIOPORTA_PRIO (qfAwarePri : Nat) : Nat := qfAwarePri + 1

/-- The third enumerator of `KernelAwareISRs`. -/
def SYSTICK_PRIO (qfAwarePri : Nat) : Nat := qfAwarePri + 2

/-- The interrupt controller as `QF_onStartup` sets it up: for every source
the priority given to it by a call of `NVIC_SetPriority` (`none` when there was
no call: the source keeps its default priority), and whether the source has
been enabled. -/
structure Nvic where
  setPriority : IRQn → Option Nat
  enabled : IRQn → Bool

/-- The interrupt controller before `QF_onStartup`. -/
def resetNvic : Nvic := ⟨fun _ => none, fun _ => false⟩

/-- The call `NVIC_SetPriority(irq, prio)`. -/
def NVIC_SetPriority (irq : IRQn) (prio : Nat) (v : Nvic) : Nvic :=
  { v with setPriority := fun i => if i = irq then some prio else v.setPriority i }

/-- The call `NVIC_EnableIRQ(irq)`. -/
def NVIC_EnableIRQ (irq : IRQn) (v : Nvic) : Nvic :=
  { v with enabled := fun i => if i = irq then true else v.enabled i }

/-- The call `SysTick_Config(ticks)`: the SysTick timer and its interrupt are
switched on. -/
def SysTick_Config (v : Nvic) : Nvic :=
  { v with enabled := fun i => if i = IRQn.SysTick_IRQn then true else v.enabled i }

/-- The callback `QF_onStartup`, as far as the interrupt controller goes. -/
def QF_onStartup (qfAwarePri : Nat) (v : Nvic) : Nvic :=
  let v := SysTick_Config v
  let v := NVIC_SetPriority IRQn.ADCSeq3_IRQn ( ADCSEQ3_PRIO qfAwarePri) v
  let v := NVIC_SetPriority IRQn.SysTick_IRQn ( SYSTICK_PRIO qfAwarePri) v
  let v := NVIC_EnableIRQ IRQn.ADCSeq3_IRQn v
  let v := NVIC_EnableIRQ IRQn.GPIOPortA_IRQn v
  v

/-! ## Auxiliary facts -/

theorem toInt32_of_range (i : Int) (h1 : -2 ^ 31 ≤ i) (h2 : i < 2 ^ 31) : toInt32 i = i := by
  unfold toInt32
  split <;> omega

theorem asrInt_three (i : Int) : asrInt i 3 = i / 8 := by
  unfold asrInt
  have := Int.shiftRight_eq_div_pow i 3
  simpa using this

theorem lowPass_int (x y : Nat) (hx : x < 2 ^ 31) (hy : y < 2 ^ 31) (h : x + 4 < 2 ^ 31 + y) :
    ((lowPass x y : Nat) : Int) = (y : Int) + ((x : Int) - (y : Int) + 4) / 8 := by
  have e1 : castInt x = x := toInt32_of_range x (by omega) (by omega)
  have e2 : castInt y = y := toInt32_of_range y (by omega) (by omega)
  have e3 : subInt (x : Int) (y : Int) = (x : Int) - y := toInt32_of_range _ (by omega) (by omega)
  have e4 : addInt ((x : Int) - y) 4 = (x : Int) - y + 4 := toInt32_of_range _ (by omega) (by omega)
  unfold lowPass addAssignU32
  rw [e1, e2, e3, e4, asrInt_three]
  unfold toU32
  omega

theorem lowPass_le (x y : Nat) (hx : x ≤ 1023) (hy : y ≤ 1023) : lowPass x y ≤ 1023 := by
  have := lowPass_int x y (by omega) (by omega) (by omega)
  omega

theorem and_btn_ne_zero (x : Nat) : x &&& USER_BTN ≠ 0 ↔ x.testBit 4 = true := by
  have h : USER_BTN = 2 ^ 4 := by decide
  rw [h, Nat.and_two_pow]
  cases x.testBit 4 <;> simp

theorem testBit_notU32 (u i : Nat) (hi : i < 32) : (notU32 u).testBit i = !(u.testBit i) := by
  unfold notU32 WORD
  rw [Nat.testBit_xor, Nat.testBit_two_pow_sub_one, Nat.testBit_mod_two_pow]
  simp [hi]

theorem testBit_debounce (b : ButtonsDebouncing) (c i : Nat) :
    (debounce b c).depressed.testBit i =
      ((b.depressed.testBit i || (b.previous.testBit i && c.testBit i)) &&
        (b.previous.testBit i || c.testBit i)) := by
  simp [debounce, Nat.testBit_and, Nat.testBit_or]

/-- The outcome of an invocation whose assertion holds. -/
theorem handler_ready (cfg : Config) (st : Statics) (r : Regs) (h : dataReady r = true) :
    ADCSeq3_IRQHandler cfg st r =
      { statics :=
          { adcLPS := lowPass (r.SSFIFO3 % WORD) st.adcLPS,
            wheel := wheelPos cfg.BSP_SCREEN_HEIGHT (lowPass (r.SSFIFO3 % WORD) st.adcLPS),
            buttons := debounce st.buttons (notU32 r.GPIOC_DATA) },
        posts :=
          (if wheelPos cfg.BSP_SCREEN_HEIGHT (lowPass (r.SSFIFO3 % WORD) st.adcLPS) ≠ st.wheel then
            [Post.mk Actor.AO_Ship Signal.PLAYER_SHIP_MOVE_SIG
              (shipMovePar cfg.GAME_SHIP_X
                (wheelPos cfg.BSP_SCREEN_HEIGHT (lowPass (r.SSFIFO3 % WORD) st.adcLPS)))]
          else []) ++
          (if st.buttons.depressed.testBit 4 = false ∧
              (debounce st.buttons (notU32 r.GPIOC_DATA)).depressed.testBit 4 = true then
            [Post.mk Actor.AO_Ship Signal.PLAYER_TRIGGER_SIG 0,
             Post.mk Actor.AO_Tunnel Signal.PLAYER_TRIGGER_SIG 0]
          else []),
        iscWrite := 8,
        ending := Ending.returns } := by
  unfold ADCSeq3_IRQHandler
  simp only [h, Bool.true_eq_false, if_false]
  have hw : ∀ t : Nat, (if t ≠ st.wheel then t else st.wheel) = t := by
    intro t; split <;> simp_all
  have hx : ∀ a b : Nat, ((a ^^^ b) &&& USER_BTN ≠ 0 ∧ b &&& USER_BTN ≠ 0) ↔
      (a.testBit 4 = false ∧ b.testBit 4 = true) := by
    intro a b
    rw [and_btn_ne_zero, and_btn_ne_zero, Nat.testBit_xor]
    cases a.testBit 4 <;> cases b.testBit 4 <;> simp
  have ht : ∀ (a b : Nat) (l : List Post),
      (if (a ^^^ b) &&& USER_BTN ≠ 0 then (if b &&& USER_BTN ≠ 0 then l else []) else []) =
      (if a.testBit 4 = false ∧ b.testBit 4 = true then l else []) := by
    intro a b l
    have := hx a b
    split_ifs <;> first | rfl | (exfalso; tauto)
  simp only [hw, ht]
  rfl

theorem handler_not_ready (cfg : Config) (st : Statics) (r : Regs) (h : dataReady r = false) :
    ADCSeq3_IRQHandler cfg st r =
      { statics := st, posts := [], iscWrite := 8, ending := Ending.systemReset 113 } := by
  unfold ADCSeq3_IRQHandler
  simp only [h, if_true]
  rfl

theorem postsOf_append (sig : Signal) (a b : List Post) :
    postsOf sig (a ++ b) = postsOf sig a ++ postsOf sig b := by
  simp [postsOf]

theorem trigger_posts_ready (cfg : Config) (st : Statics) (r : Regs) (h : dataReady r = true) :
    postsOf Signal.PLAYER_TRIGGER_SIG (ADCSeq3_IRQHandler cfg st r).posts =
      if st.buttons.depressed.testBit 4 = false ∧
          (debounce st.buttons (notU32 r.GPIOC_DATA)).depressed.testBit 4 = true then
        [Post.mk Actor.AO_Ship Signal.PLAYER_TRIGGER_SIG 0,
         Post.mk Actor.AO_Tunnel Signal.PLAYER_TRIGGER_SIG 0]
      else [] := by
  rw [handler_ready cfg st r h]
  simp only [postsOf_append]
  split_ifs <;> simp [postsOf]

theorem move_posts_ready (cfg : Config) (st : Statics) (r : Regs) (h : dataReady r = true) :
    postsOf Signal.PLAYER_SHIP_MOVE_SIG (ADCSeq3_IRQHandler cfg st r).posts =
      if wheelPos cfg.BSP_SCREEN_HEIGHT (lowPass (r.SSFIFO3 % WORD) st.adcLPS) ≠ st.wheel then
        [Post.mk Actor.AO_Ship Signal.PLAYER_SHIP_MOVE_SIG
          (shipMovePar cfg.GAME_SHIP_X
            (wheelPos cfg.BSP_SCREEN_HEIGHT (lowPass (r.SSFIFO3 % WORD) st.adcLPS)))]
      else [] := by
  rw [handler_ready cfg st r h]
  simp only [postsOf_append]
  split_ifs <;> simp [postsOf]

theorem adcLPS_ready (cfg : Config) (st : Statics) (r : Regs) (h : dataReady r = true) :
    (ADCSeq3_IRQHandler cfg st r).statics.adcLPS = lowPass (r.SSFIFO3 % WORD) st.adcLPS := by
  rw [handler_ready cfg st r h]

theorem wheel_ready (cfg : Config) (st : Statics) (r : Regs) (h : dataReady r = true) :
    (ADCSeq3_IRQHandler cfg st r).statics.wheel =
      wheelPos cfg.BSP_SCREEN_HEIGHT (lowPass (r.SSFIFO3 % WORD) st.adcLPS) := by
  rw [handler_ready cfg st r h]

theorem buttons_ready (cfg : Config) (st : Statics) (r : Regs) (h : dataReady r = true) :
    (ADCSeq3_IRQHandler cfg st r).statics.buttons =
      debounce st.buttons (notU32 r.GPIOC_DATA) := by
  rw [handler_ready cfg st r h]

theorem ending_ready (cfg : Config) (st : Statics) (r : Regs) (h : dataReady r = true) :
    (ADCSeq3_IRQHandler cfg st r).ending = Ending.returns := by
  rw [handler_ready cfg st r h]


theorem samplerStatics_succ (cfg : Config) (st : Statics) (inp : Nat → Regs) (n : Nat)
    (s : Statics) (hs : samplerStatics cfg st inp n = some s) (hr : dataReady (inp n) = true) :
    samplerStatics cfg st inp (n + 1) = some (ADCSeq3_IRQHandler cfg s (inp n)).statics := by
  simp only [samplerStatics, hs, ending_ready cfg s (inp n) hr]

theorem samplerStatics_invariant (cfg : Config) (st : Statics) (inp : Nat → Regs)
    (P : Statics → Prop) (hready : ∀ k, dataReady (inp k) = true) (h0 : P st)
    (hstep : ∀ s k, P s → P (ADCSeq3_IRQHandler cfg s (inp k)).statics) (n : Nat) :
    ∃ s, samplerStatics cfg st inp n = some s ∧ P s := by
  induction n with
  | zero => exact ⟨st, rfl, h0⟩
  | succ n ih =>
    obtain ⟨s, hs, hp⟩ := ih
    exact ⟨_, samplerStatics_succ cfg st inp n s hs (hready n), hstep s n hp⟩

theorem samplerStatics_some (cfg : Config) (st : Statics) (inp : Nat → Regs)
    (hready : ∀ k, dataReady (inp k) = true) (n : Nat) :
    ∃ s, samplerStatics cfg st inp n = some s := by
  obtain ⟨s, hs, _⟩ :=
    samplerStatics_invariant cfg st inp (fun _ => True) hready trivial (fun _ _ _ => trivial) n
  exact ⟨s, hs⟩

theorem samplerOutcome_eq (cfg : Config) (st : Statics) (inp : Nat → Regs) (n : Nat)
    (s : Statics) (hs : samplerStatics cfg st inp n = some s) :
    samplerOutcome cfg st inp n = some (ADCSeq3_IRQHandler cfg s (inp n)) := by
  simp [samplerOutcome, hs]

theorem held_button_stays_depressed (cfg : Config) (st : Statics) (inp : Nat → Regs) (m : Nat)
    (hready : ∀ k, dataReady (inp k) = true) (s : Statics)
    (hs : samplerStatics cfg st inp (m + 1) = some s)
    (hbit : s.buttons.depressed.testBit 4 = true) (d : Nat)
    (hheld : ∀ k, m < k → k < m + 1 + d → (notU32 (inp k).GPIOC_DATA).testBit 4 = true) :
    ∃ t, samplerStatics cfg st inp (m + 1 + d) = some t ∧
      t.buttons.depressed.testBit 4 = true := by
  induction d with
  | zero => exact ⟨s, hs, hbit⟩
  | succ d ih =>
    obtain ⟨t, ht, hb⟩ := ih (fun k h1 h2 => hheld k h1 (by omega))
    refine ⟨_, samplerStatics_succ cfg st inp (m + 1 + d) t ht (hready _), ?_⟩
    rw [buttons_ready cfg t _ (hready _), testBit_debounce, hb,
      hheld (m + 1 + d) (by omega) (by omega)]
    simp

theorem wheelPos_eq (H s : Nat) (hH : 2 ≤ H) (hov : 1024 * (H - 2) < 2 ^ 32) (hs : s ≤ 1023) :
    wheelPos H s = (1024 - s) * (H - 2) / 1024 := by
  have hH2 : H < 2 ^ 32 := by omega
  have e1 : subU32 (1 <<< 10) s = 1024 - s := by
    have : (1 : Nat) <<< 10 = 1024 := by decide
    rw [this]
    unfold subU32 toU32
    omega
  have e2 : subU32 H 2 = H - 2 := by
    unfold subU32 toU32
    omega
  have hle : (1024 - s) * (H - 2) ≤ 1024 * (H - 2) := Nat.mul_le_mul_right _ (by omega)
  unfold wheelPos mulU32 WORD
  rw [e1, e2, Nat.mod_eq_of_lt (by omega), Nat.shiftRight_eq_div_pow]

theorem samplerStatics_invariant_of_some (cfg : Config) (st : Statics) (inp : Nat → Regs)
    (P : Statics → Prop) (h0 : P st)
    (hstep : ∀ s k, P s → P (ADCSeq3_IRQHandler cfg s (inp k)).statics) :
    ∀ (n : Nat) (s : Statics), samplerStatics cfg st inp n = some s → P s := by
  intro n
  induction n with
  | zero =>
    intro s hs
    simp only [samplerStatics, Option.some.injEq] at hs
    exact hs ▸ h0
  | succ n ih =>
    intro s hs
    cases hp : samplerStatics cfg st inp n with
    | none => simp [samplerStatics, hp] at hs
    | some p =>
      cases he : (ADCSeq3_IRQHandler cfg p (inp n)).ending with
      | returns =>
        simp only [samplerStatics, hp, he, Option.some.injEq] at hs
        exact hs ▸ hstep p n (ih p hp)
      | systemReset loc => simp [samplerStatics, hp, he] at hs

theorem handler_adcLPS_le (cfg : Config) (st : Statics) (r : Regs) (hy : st.adcLPS ≤ 1023)
    (hx : r.SSFIFO3 ≤ 1023) : (ADCSeq3_IRQHandler cfg st r).statics.adcLPS ≤ 1023 := by
  cases h : dataReady r
  · rw [handler_not_ready cfg st r h]
    exact hy
  · rw [adcLPS_ready cfg st r h]
    have : r.SSFIFO3 % WORD = r.SSFIFO3 := Nat.mod_eq_of_lt (by unfold WORD; omega)
    rw [this]
    exact lowPass_le _ _ hx hy

theorem iir_invariant (cfg : Config) (inp : Nat → Regs)
    (hready : ∀ k, dataReady (inp k) = true) (hx : ∀ k, (inp k).SSFIFO3 + 4 < 2 ^ 31) (n : Nat) :
    ∃ s, samplerStatics cfg initStatics inp n = some s ∧ s.adcLPS + 4 < 2 ^ 31 ∧
      (s.adcLPS : Int) = iirRecurrence (fun k => ((inp k).SSFIFO3 : Int)) n := by
  induction n with
  | zero => exact ⟨initStatics, rfl, by decide, rfl⟩
  | succ n ih =>
    obtain ⟨s, hs, hb, he⟩ := ih
    refine ⟨_, samplerStatics_succ cfg initStatics inp n s hs (hready n), ?_, ?_⟩
    all_goals
      rw [adcLPS_ready cfg s _ (hready n)]
      have hm : (inp n).SSFIFO3 % WORD = (inp n).SSFIFO3 :=
        Nat.mod_eq_of_lt (by have := hx n; unfold WORD; omega)
      rw [hm]
      have hi := lowPass_int (inp n).SSFIFO3 s.adcLPS (by have := hx n; omega) (by omega)
        (by have := hx n; omega)
    · have := hx n
      omega
    · rw [hi, iirRecurrence, he]

theorem shrink_mono (a b : Nat) (h : a ≤ b) : shrink a ≤ shrink b := by
  unfold shrink
  omega

theorem shrink_le (a : Nat) : shrink a ≤ a := by
  unfold shrink
  omega

theorem deviation_lowPass (x y : Nat) (hx : x ≤ 1023) (hy : y ≤ 1023) :
    deviation x (lowPass x y) ≤ shrink (deviation x y) := by
  have h := lowPass_int x y (by omega) (by omega) (by omega)
  unfold deviation shrink
  split <;> split <;> omega

theorem lowPass_fixed (x y : Nat) (hx : x ≤ 1023) (hy : y ≤ 1023) (hd : deviation x y ≤ 4) :
    lowPass x y = y := by
  have h := lowPass_int x y (by omega) (by omega) (by omega)
  unfold deviation at hd
  split at hd <;> omega

theorem deviation_near (x y : Nat) (hd : deviation x y ≤ 4) : x ≤ y + 3 ∧ y ≤ x + 4 := by
  unfold deviation at hd
  split at hd <;> omega

theorem shrink_iterate_41 : shrink^[41] 1024 = 4 := by decide

theorem shrink_iterate_le (k : Nat) : shrink^[41 + k] 1024 ≤ 4 := by
  induction k with
  | zero => exact le_of_eq shrink_iterate_41
  | succ k ih =>
    rw [← Nat.add_assoc, Function.iterate_succ_apply']
    exact (shrink_le _).trans ih

theorem constant_input_invariant (cfg : Config) (st : Statics) (inp : Nat → Regs) (x : Nat)
    (hx : x ≤ 1023) (hy : st.adcLPS ≤ 1023) (hready : ∀ k, dataReady (inp k) = true)
    (hin : ∀ k, (inp k).SSFIFO3 = x) (n : Nat) :
    ∃ s, samplerStatics cfg st inp n = some s ∧ s.adcLPS ≤ 1023 ∧
      deviation x s.adcLPS ≤ shrink^[n] 1024 := by
  induction n with
  | zero =>
    refine ⟨st, rfl, hy, ?_⟩
    simp only [Function.iterate_zero, id_eq]
    unfold deviation
    split <;> omega
  | succ n ih =>
    obtain ⟨s, hs, hb, hd⟩ := ih
    have hm : (inp n).SSFIFO3 % WORD = x := by
      rw [hin n]
      exact Nat.mod_eq_of_lt (by unfold WORD; omega)
    refine ⟨_, samplerStatics_succ cfg st inp n s hs (hready n), ?_, ?_⟩
    · rw [adcLPS_ready cfg s _ (hready n), hm]
      exact lowPass_le x _ hx hb
    · rw [adcLPS_ready cfg s _ (hready n), hm, Function.iterate_succ_apply']
      exact (deviation_lowPass x _ hx hb).trans (shrink_mono _ _ hd)

theorem wheel_after_invocation (cfg : Config) (st : Statics) (inp : Nat → Regs)
    (hready : ∀ k, dataReady (inp k) = true) (n : Nat) (s : Statics)
    (hs : samplerStatics cfg st inp (n + 1) = some s) :
    s.wheel = wheelPos cfg.BSP_SCREEN_HEIGHT s.adcLPS := by
  obtain ⟨p, hp⟩ := samplerStatics_some cfg st inp hready n
  rw [samplerStatics_succ cfg st inp n p hp (hready n)] at hs
  cases hs
  rw [wheel_ready cfg p _ (hready n), adcLPS_ready cfg p _ (hready n)]

theorem constant_input_stays (cfg : Config) (st : Statics) (inp : Nat → Regs) (x : Nat)
    (hx : x ≤ 1023) (hready : ∀ k, dataReady (inp k) = true)
    (hin : ∀ k, (inp k).SSFIFO3 = x) (m : Nat) (s : Statics)
    (hs : samplerStatics cfg st inp m = some s) (hb : s.adcLPS ≤ 1023)
    (hd : deviation x s.adcLPS ≤ 4) (k : Nat) :
    ∃ t, samplerStatics cfg st inp (m + k) = some t ∧ t.adcLPS = s.adcLPS := by
  induction k with
  | zero => exact ⟨s, hs, rfl⟩
  | succ k ih =>
    obtain ⟨t, ht, he⟩ := ih
    have hm : (inp (m + k)).SSFIFO3 % WORD = x := by
      rw [hin (m + k)]
      exact Nat.mod_eq_of_lt (by unfold WORD; omega)
    refine ⟨_, samplerStatics_succ cfg st inp (m + k) t ht (hready _), ?_⟩
    rw [adcLPS_ready cfg t _ (hready _), hm, he]
    exact lowPass_fixed x _ hx hb hd

theorem dataReady_scenarioInput (adc : Nat → Nat) (masks : List Nat) (k : Nat) :
    dataReady (scenarioInput adc masks k) = true := by
  have h : (scenarioInput adc masks k).SSFSTAT3 = 0 := rfl
  unfold dataReady
  rw [h]
  decide

theorem scenario_step (cfg : Config) (s : Statics) (r : Regs) (b : ButtonsDebouncing)
    (data : Nat) (hr : dataReady r = true) (hd : r.GPIOC_DATA = data) (hb : s.buttons = b) :
    (ADCSeq3_IRQHandler cfg s r).statics.buttons = debounce b (notU32 data) ∧
    postsOf Signal.PLAYER_TRIGGER_SIG (ADCSeq3_IRQHandler cfg s r).posts =
      if b.depressed.testBit 4 = false ∧
          (debounce b (notU32 data)).depressed.testBit 4 = true then
        [Post.mk Actor.AO_Ship Signal.PLAYER_TRIGGER_SIG 0,
         Post.mk Actor.AO_Tunnel Signal.PLAYER_TRIGGER_SIG 0]
      else [] := by
  rw [buttons_ready cfg s r hr, trigger_posts_ready cfg s r hr, hd, hb]
  exact ⟨rfl, rfl⟩

/-! ## C1: a single differing sample never flips the debounced state -/

/-- C1: one debouncer update of `ADCSeq3_IRQHandler` changes bit `i` of the
debounced `depressed` mask only if the previous sample and the current sample
(the inverted port reading `current`, which the update stores as the next
`previous`) both have bit `i` equal to the new debounced value; when the
current sample of the bit differs from the previous one the debounced bit is
unchanged. -/
theorem debounce_flips_only_on_two_equal_samples (cfg : Config) (st : Statics) (r : Regs)
    (i : Nat) :
    ((ADCSeq3_IRQHandler cfg st r).statics.buttons.depressed.testBit i ≠
        st.buttons.depressed.testBit i →
      st.buttons.previous.testBit i =
          (ADCSeq3_IRQHandler cfg st r).statics.buttons.depressed.testBit i ∧
        (notU32 r.GPIOC_DATA).testBit i =
          (ADCSeq3_IRQHandler cfg st r).statics.buttons.depressed.testBit i) ∧
    ((notU32 r.GPIOC_DATA).testBit i ≠ st.buttons.previous.testBit i →
      (ADCSeq3_IRQHandler cfg st r).statics.buttons.depressed.testBit i =
        st.buttons.depressed.testBit i) ∧
    (dataReady r = true →
      (ADCSeq3_IRQHandler cfg st r).statics.buttons.previous = notU32 r.GPIOC_DATA) := by
  cases h : dataReady r
  · rw [handler_not_ready cfg st r h]
    simp
  · rw [handler_ready cfg st r h]
    simp only [testBit_debounce]
    refine ⟨?_, ?_, fun _ => rfl⟩
    · cases st.buttons.depressed.testBit i <;> cases st.buttons.previous.testBit i <;>
        cases (notU32 r.GPIOC_DATA).testBit i <;> simp
    · cases st.buttons.depressed.testBit i <;> cases st.buttons.previous.testBit i <;>
        cases (notU32 r.GPIOC_DATA).testBit i <;> simp

/-- Witness for C1 (a change does happen): with `depressed` all ones,
`previous = 0` and the port reading `0xFFFFFFFF` (sample `0`), bit 4 of
`depressed` changes, and the previous and the current sample both carry the
new value of the bit. -/
theorem debounce_flips_only_on_two_equal_samples_witness :
    (ADCSeq3_IRQHandler (boardConfig 0) ⟨0, 0, ⟨0xFFFFFFFF, 0⟩⟩
        ⟨0, 0, 0xFFFFFFFF⟩).statics.buttons.depressed.testBit 4 ≠
      (⟨0, 0, ⟨0xFFFFFFFF, 0⟩⟩ : Statics).buttons.depressed.testBit 4 ∧
    ((⟨0, 0, ⟨0xFFFFFFFF, 0⟩⟩ : Statics).buttons.previous.testBit 4 =
        (ADCSeq3_IRQHandler (boardConfig 0) ⟨0, 0, ⟨0xFFFFFFFF, 0⟩⟩
          ⟨0, 0, 0xFFFFFFFF⟩).statics.buttons.depressed.testBit 4 ∧
      (notU32 (⟨0, 0, 0xFFFFFFFF⟩ : Regs).GPIOC_DATA).testBit 4 =
        (ADCSeq3_IRQHandler (boardConfig 0) ⟨0, 0, ⟨0xFFFFFFFF, 0⟩⟩
          ⟨0, 0, 0xFFFFFFFF⟩).statics.buttons.depressed.testBit 4) :=
  ⟨by decide,
    (debounce_flips_only_on_two_equal_samples (boardConfig 0) ⟨0, 0, ⟨0xFFFFFFFF, 0⟩⟩
      ⟨0, 0, 0xFFFFFFFF⟩ 4).1 (by decide)⟩

/-! ## C2: the smoothed value stays in the range of the converter -/

/-- C2: for a sample and a stored smoothed value in `[0, 1023]` the update of
line 120 gives a value in `[0, 1023]` again (for the bare update and for the
handler); hence, from the initial value 0, `adcLPS` is at most 1023 after any
number of invocations with samples in range, and with data ready in every
invocation that state is reached. -/
theorem adcLPS_stays_in_range :
    (∀ x y : Nat, x ≤ 1023 → y ≤ 1023 → lowPass x y ≤ 1023) ∧
    (∀ (cfg : Config) (st : Statics) (r : Regs), st.adcLPS ≤ 1023 → r.SSFIFO3 ≤ 1023 →
      (ADCSeq3_IRQHandler cfg st r).statics.adcLPS ≤ 1023) ∧
    (∀ (cfg : Config) (inp : Nat → Regs) (n : Nat) (s : Statics),
      (∀ k, (inp k).SSFIFO3 ≤ 1023) → samplerStatics cfg initStatics inp n = some s →
      s.adcLPS ≤ 1023) ∧
    (∀ (cfg : Config) (inp : Nat → Regs) (n : Nat),
      (∀ k, dataReady (inp k) = true) → (∀ k, (inp k).SSFIFO3 ≤ 1023) →
      ∃ s, samplerStatics cfg initStatics inp n = some s ∧ s.adcLPS ≤ 1023) := by
  refine ⟨lowPass_le, handler_adcLPS_le, ?_, ?_⟩
  · intro cfg inp n s hx hs
    exact samplerStatics_invariant_of_some cfg initStatics inp (fun s => s.adcLPS ≤ 1023)
      (by decide) (fun s k hp => handler_adcLPS_le cfg s (inp k) hp (hx k)) n s hs
  · intro cfg inp n hready hx
    exact samplerStatics_invariant cfg initStatics inp (fun s => s.adcLPS ≤ 1023) hready
      (by decide) (fun s k hp => handler_adcLPS_le cfg s (inp k) hp (hx k)) n

/-- Witness for C2: the sample 1023 against the smoothed value 0, and five
invocations reading the sample 1023. -/
theorem adcLPS_stays_in_range_witness :
    (1023 : Nat) ≤ 1023 ∧ (0 : Nat) ≤ 1023 ∧ lowPass 1023 0 ≤ 1023 ∧
    (∃ s, samplerStatics (boardConfig 0) initStatics (fun _ => ⟨0, 1023, 0⟩) 5 = some s ∧
      s.adcLPS ≤ 1023) :=
  ⟨by decide, by decide, adcLPS_stays_in_range.1 1023 0 (by decide) (by decide),
    adcLPS_stays_in_range.2.2.2 (boardConfig 0) (fun _ => ⟨0, 1023, 0⟩) 5
      (fun _ => (by decide : dataReady (⟨0, 1023, 0⟩ : Regs) = true))
      (fun _ => (by decide : (1023 : Nat) ≤ 1023))⟩

/-! ## C3: trigger events on the depress edge only -/

/-- C3: in an invocation whose assertion holds the `PLAYER_TRIGGER_SIG` events
posted are exactly one for `AO_Ship` and one for `AO_Tunnel`, both with
parameter 0, when the debounced `USER_BTN` bit goes from clear to set in this
invocation, and none otherwise; so after an invocation that posted them, no
later invocation posts them again while the button sample stays set. -/
theorem trigger_posted_iff_button_becomes_depressed :
    (∀ (cfg : Config) (st : Statics) (r : Regs), dataReady r = true →
      postsOf Signal.PLAYER_TRIGGER_SIG (ADCSeq3_IRQHandler cfg st r).posts =
        if st.buttons.depressed &&& USER_BTN = 0 ∧
            (ADCSeq3_IRQHandler cfg st r).statics.buttons.depressed &&& USER_BTN ≠ 0 then
          [Post.mk Actor.AO_Ship Signal.PLAYER_TRIGGER_SIG 0,
           Post.mk Actor.AO_Tunnel Signal.PLAYER_TRIGGER_SIG 0]
        else []) ∧
    (∀ (cfg : Config) (st : Statics) (inp : Nat → Regs) (m n : Nat) (om ou : Outcome),
      (∀ k, dataReady (inp k) = true) → m < n →
      (∀ k, m < k → k ≤ n → notU32 (inp k).GPIOC_DATA &&& USER_BTN ≠ 0) →
      samplerOutcome cfg st inp m = some om → samplerOutcome cfg st inp n = some ou →
      postsOf Signal.PLAYER_TRIGGER_SIG om.posts ≠ [] →
      postsOf Signal.PLAYER_TRIGGER_SIG ou.posts = []) := by
  constructor
  · intro cfg st r h
    rw [trigger_posts_ready cfg st r h, buttons_ready cfg st r h]
    have e1 : st.buttons.depressed &&& USER_BTN = 0 ↔ st.buttons.depressed.testBit 4 = false := by
      have := and_btn_ne_zero st.buttons.depressed
      cases hb : st.buttons.depressed.testBit 4 <;> simp_all
    simp only [e1, and_btn_ne_zero]
  · intro cfg st inp m n om ou hready hmn hheld hom hon hpost
    obtain ⟨sm, hsm⟩ := samplerStatics_some cfg st inp hready m
    rw [samplerOutcome_eq cfg st inp m sm hsm] at hom
    cases hom
    rw [trigger_posts_ready cfg sm _ (hready m)] at hpost
    have hbit : (debounce sm.buttons (notU32 (inp m).GPIOC_DATA)).depressed.testBit 4 = true := by
      by_contra hc
      simp [hc] at hpost
    have hs1 := samplerStatics_succ cfg st inp m sm hsm (hready m)
    obtain ⟨t, ht, hb⟩ := held_button_stays_depressed cfg st inp m hready _ hs1
      (by rw [buttons_ready cfg sm _ (hready m)]; exact hbit) (n - (m + 1))
      (fun k h1 h2 => (and_btn_ne_zero _).1 (hheld k h1 (by omega)))
    have hn : m + 1 + (n - (m + 1)) = n := by omega
    rw [hn] at ht
    rw [samplerOutcome_eq cfg st inp n t ht] at hon
    cases hon
    rw [trigger_posts_ready cfg t _ (hready n)]
    simp [hb]


/-- Witness for C3: from `depressed = 0`, `previous` all ones and the port
reading 0 the button bit becomes set and the two trigger events are posted. -/
theorem trigger_posted_iff_button_becomes_depressed_witness :
    dataReady (⟨0, 0, 0⟩ : Regs) = true ∧
    postsOf Signal.PLAYER_TRIGGER_SIG
        (ADCSeq3_IRQHandler (boardConfig 0) ⟨0, 0, ⟨0, 0xFFFFFFFF⟩⟩ ⟨0, 0, 0⟩).posts =
      [Post.mk Actor.AO_Ship Signal.PLAYER_TRIGGER_SIG 0,
       Post.mk Actor.AO_Tunnel Signal.PLAYER_TRIGGER_SIG 0] :=
  ⟨by decide,
    (trigger_posted_iff_button_becomes_depressed.1 (boardConfig 0) ⟨0, 0, ⟨0, 0xFFFFFFFF⟩⟩
      ⟨0, 0, 0⟩ (by decide)).trans (by decide)⟩

/-! ## C4: a positioning event exactly when the level changes -/

/-- C4: in an invocation whose assertion holds the `PLAYER_SHIP_MOVE_SIG`
events posted are one event for `AO_Ship` when the level computed from the
updated `adcLPS` differs from the stored `wheel`, and none otherwise; the new
`wheel` is that level, so a following invocation that computes the same level
posts no positioning event. -/
theorem ship_move_posted_iff_level_changes (cfg : Config) (st : Statics) (r : Regs)
    (h : dataReady r = true) :
    postsOf Signal.PLAYER_SHIP_MOVE_SIG (ADCSeq3_IRQHandler cfg st r).posts =
      (if wheelPos cfg.BSP_SCREEN_HEIGHT (ADCSeq3_IRQHandler cfg st r).statics.adcLPS ≠ st.wheel
        then [Post.mk Actor.AO_Ship Signal.PLAYER_SHIP_MOVE_SIG
          (shipMovePar cfg.GAME_SHIP_X
            (wheelPos cfg.BSP_SCREEN_HEIGHT (ADCSeq3_IRQHandler cfg st r).statics.adcLPS))]
        else []) ∧
    (ADCSeq3_IRQHandler cfg st r).statics.wheel =
      wheelPos cfg.BSP_SCREEN_HEIGHT (ADCSeq3_IRQHandler cfg st r).statics.adcLPS ∧
    ∀ r2 : Regs, dataReady r2 = true →
      wheelPos cfg.BSP_SCREEN_HEIGHT
          (ADCSeq3_IRQHandler cfg (ADCSeq3_IRQHandler cfg st r).statics r2).statics.adcLPS =
        wheelPos cfg.BSP_SCREEN_HEIGHT (ADCSeq3_IRQHandler cfg st r).statics.adcLPS →
      postsOf Signal.PLAYER_SHIP_MOVE_SIG
        (ADCSeq3_IRQHandler cfg (ADCSeq3_IRQHandler cfg st r).statics r2).posts = [] := by
  have e1 := adcLPS_ready cfg st r h
  have e2 := wheel_ready cfg st r h
  refine ⟨?_, ?_, ?_⟩
  · rw [move_posts_ready cfg st r h, e1]
  · rw [e1, e2]
  · intro r2 h2 heq
    rw [move_posts_ready cfg _ r2 h2, if_neg]
    rw [adcLPS_ready cfg _ r2 h2, e1] at heq
    rw [e2, e1]
    simpa using heq


/-- Witness for C4: the first invocation with the sample 1023 moves the level
from 0 to 12 and posts one positioning event. -/
theorem ship_move_posted_iff_level_changes_witness :
    dataReady (⟨0, 1023, 0⟩ : Regs) = true ∧
    postsOf Signal.PLAYER_SHIP_MOVE_SIG
        (ADCSeq3_IRQHandler (boardConfig 0) initStatics ⟨0, 1023, 0⟩).posts =
      [Post.mk Actor.AO_Ship Signal.PLAYER_SHIP_MOVE_SIG 3072] :=
  ⟨by decide,
    (ship_move_posted_iff_level_changes (boardConfig 0) initStatics ⟨0, 1023, 0⟩
      (by decide)).1.trans (by decide)⟩

/-! ## C5: the level is antitone in the smoothed value and bounded -/

/-- C5: for a screen height `H` of at least 2 with `1024 * (H - 2)` below
`2 ^ 32`, the level of line 123, computed in 32-bit unsigned arithmetic, is
`((1024 - s) * (H - 2)) / 1024` for every `s` in `[0, 1023]`, lies in
`[0, H - 2]` and does not increase when `s` increases. -/
theorem wheelPos_antitone_and_bounded (H : Nat) (hH : 2 ≤ H) (hov : 1024 * (H - 2) < 2 ^ 32) :
    (∀ s, s ≤ 1023 → wheelPos H s = (1024 - s) * (H - 2) / 1024) ∧
    (∀ s, s ≤ 1023 → wheelPos H s ≤ H - 2) ∧
    (∀ s t, s ≤ t → t ≤ 1023 → wheelPos H t ≤ wheelPos H s) := by
  refine ⟨fun s hs => wheelPos_eq H s hH hov hs, ?_, ?_⟩
  · intro s hs
    rw [wheelPos_eq H s hH hov hs]
    have hle : (1024 - s) * (H - 2) ≤ (H - 2) * 1024 := by
      rw [Nat.mul_comm (H - 2)]
      exact Nat.mul_le_mul_right _ (by omega)
    exact (Nat.div_le_div_right hle).trans (by rw [Nat.mul_div_cancel _ (by decide)])
  · intro s t hst ht
    rw [wheelPos_eq H s hH hov (by omega), wheelPos_eq H t hH hov ht]
    exact Nat.div_le_div_right (Nat.mul_le_mul_right _ (by omega))

/-- Witness for C5: the screen height 16 of the board. -/
theorem wheelPos_antitone_and_bounded_witness :
    2 ≤ 16 ∧ 1024 * (16 - 2) < 2 ^ 32 ∧
    (∀ s, s ≤ 1023 → wheelPos (boardConfig 0).BSP_SCREEN_HEIGHT s ≤ 16 - 2) ∧
    (∀ s t, s ≤ t → t ≤ 1023 →
      wheelPos (boardConfig 0).BSP_SCREEN_HEIGHT t ≤ wheelPos (boardConfig 0).BSP_SCREEN_HEIGHT s) :=
  ⟨by decide, by decide,
    (wheelPos_antitone_and_bounded 16 (by decide) (by decide)).2.1,
    (wheelPos_antitone_and_bounded 16 (by decide) (by decide)).2.2⟩

/-! ## C6: the filter step is the recurrence over the integers -/

/-- C6, as amended: for a sample `x` and a smoothed value `y` below `2 ^ 31`
with `x - y + 4` below `2 ^ 31` (so for all `x`, `y` in `[0, 1023]`) the update
of line 120 gives exactly `y + floor ((x - y + 4) / 8)`, without wrap-around,
also when `x < y`; and after any number of invocations with data ready and
samples below `2 ^ 31 - 4` the smoothed value equals the recurrence applied
step by step from 0. -/
theorem lowPass_is_iir_step :
    (∀ x y : Nat, x < 2 ^ 31 → y < 2 ^ 31 → x + 4 < 2 ^ 31 + y →
      ((lowPass x y : Nat) : Int) = (y : Int) + ((x : Int) - (y : Int) + 4) / 8) ∧
    (∀ x y : Nat, x ≤ 1023 → y ≤ 1023 →
      ((lowPass x y : Nat) : Int) = (y : Int) + ((x : Int) - (y : Int) + 4) / 8) ∧
    (∀ (cfg : Config) (st : Statics) (r : Regs), dataReady r = true →
      r.SSFIFO3 < 2 ^ 31 → st.adcLPS < 2 ^ 31 → r.SSFIFO3 + 4 < 2 ^ 31 + st.adcLPS →
      (((ADCSeq3_IRQHandler cfg st r).statics.adcLPS : Nat) : Int) =
        (st.adcLPS : Int) + ((r.SSFIFO3 : Int) - (st.adcLPS : Int) + 4) / 8) ∧
    (∀ (cfg : Config) (inp : Nat → Regs) (n : Nat),
      (∀ k, dataReady (inp k) = true) → (∀ k, (inp k).SSFIFO3 + 4 < 2 ^ 31) →
      ∃ s, samplerStatics cfg initStatics inp n = some s ∧
        (s.adcLPS : Int) = iirRecurrence (fun k => ((inp k).SSFIFO3 : Int)) n) := by
  refine ⟨lowPass_int, fun x y hx hy => lowPass_int x y (by omega) (by omega) (by omega), ?_, ?_⟩
  · intro cfg st r h hx hy hxy
    rw [adcLPS_ready cfg st r h, Nat.mod_eq_of_lt (by unfold WORD; omega)]
    exact lowPass_int _ _ hx hy hxy
  · intro cfg inp n hready hx
    obtain ⟨s, hs, _, he⟩ := iir_invariant cfg inp hready hx n
    exact ⟨s, hs, he⟩

/-- Witness for C6: the sample 0 against the smoothed value 1023 (a negative
difference), and five invocations reading the sample 1023. -/
theorem lowPass_is_iir_step_witness :
    (0 : Nat) < 2 ^ 31 ∧ (1023 : Nat) < 2 ^ 31 ∧ (0 : Nat) + 4 < 2 ^ 31 + 1023 ∧
    ((lowPass 0 1023 : Nat) : Int) = (1023 : Int) + ((0 : Int) - (1023 : Int) + 4) / 8 ∧
    (∃ s, samplerStatics (boardConfig 0) initStatics (fun _ => ⟨0, 1023, 0⟩) 5 = some s ∧
        (s.adcLPS : Int) = iirRecurrence (fun _ => (1023 : Int)) 5) :=
  ⟨by decide, by decide, by decide,
    lowPass_is_iir_step.1 0 1023 (by decide) (by decide) (by decide),
    lowPass_is_iir_step.2.2.2 (boardConfig 0) (fun _ => ⟨0, 1023, 0⟩) 5
      (fun _ => (by decide : dataReady (⟨0, 1023, 0⟩ : Regs) = true))
      (fun _ => (by decide : (1023 : Nat) + 4 < 2 ^ 31))⟩

/-- Counterexample for C6 as stated: the sample `2 ^ 31 - 1` and the smoothed
value 0 are both below `2 ^ 31`, but `x - y + 4` exceeds the largest `int` and
the update does not give `y + floor ((x - y + 4) / 8)`. -/
theorem lowPass_wraps_near_int_max :
    (2147483647 : Nat) < 2 ^ 31 ∧ (0 : Nat) < 2 ^ 31 ∧
    ((lowPass 2147483647 0 : Nat) : Int) ≠
      ((0 : Nat) : Int) + (((2147483647 : Nat) : Int) - ((0 : Nat) : Int) + 4) / 8 := by
  decide

/-! ## C7: the debounce scenario -/

/-- C7, as amended: from the initial debounce state, with the port readings
`0xFF, 0xFF, 0x00, 0x00` in four consecutive invocations (any samples of the
converter): invocation 1 leaves the button bit of `depressed` set and posts no
trigger event, invocation 2 clears the bit (release) and posts none,
invocation 3 changes nothing and posts none, invocation 4 sets the bit and
posts one trigger event to `AO_Ship` and one to `AO_Tunnel`. -/
theorem debounce_scenario_port_readings (cfg : Config) (adc : Nat → Nat) :
    ∃ o1 o2 o3 o4 : Outcome,
      samplerOutcome cfg initStatics (scenarioInput adc [0xFF, 0xFF, 0x00, 0x00]) 0 = some o1 ∧
      samplerOutcome cfg initStatics (scenarioInput adc [0xFF, 0xFF, 0x00, 0x00]) 1 = some o2 ∧
      samplerOutcome cfg initStatics (scenarioInput adc [0xFF, 0xFF, 0x00, 0x00]) 2 = some o3 ∧
      samplerOutcome cfg initStatics (scenarioInput adc [0xFF, 0xFF, 0x00, 0x00]) 3 = some o4 ∧
      initStatics.buttons = ⟨0xFFFFFFFF, 0xFFFFFFFF⟩ ∧
      o1.statics.buttons = ⟨0xFFFFFFFF, 0xFFFFFF00⟩ ∧
      postsOf Signal.PLAYER_TRIGGER_SIG o1.posts = [] ∧
      o2.statics.buttons = ⟨0xFFFFFF00, 0xFFFFFF00⟩ ∧
      postsOf Signal.PLAYER_TRIGGER_SIG o2.posts = [] ∧
      o3.statics.buttons = ⟨0xFFFFFF00, 0xFFFFFFFF⟩ ∧
      postsOf Signal.PLAYER_TRIGGER_SIG o3.posts = [] ∧
      o4.statics.buttons = ⟨0xFFFFFFFF, 0xFFFFFFFF⟩ ∧
      postsOf Signal.PLAYER_TRIGGER_SIG o4.posts =
        [Post.mk Actor.AO_Ship Signal.PLAYER_TRIGGER_SIG 0,
         Post.mk Actor.AO_Tunnel Signal.PLAYER_TRIGGER_SIG 0] ∧
      (0xFFFFFFFF &&& USER_BTN ≠ 0 ∧ 0xFFFFFF00 &&& USER_BTN = 0) := by
  have hr : ∀ k, dataReady (scenarioInput adc [0xFF, 0xFF, 0x00, 0x00] k) = true :=
    fun k => dataReady_scenarioInput adc _ k
  have h0 : samplerStatics cfg initStatics (scenarioInput adc [0xFF, 0xFF, 0x00, 0x00]) 0 =
      some initStatics := rfl
  have h1 := samplerStatics_succ cfg initStatics _ 0 _ h0 (hr 0)
  have h2 := samplerStatics_succ cfg initStatics _ 1 _ h1 (hr 1)
  have h3 := samplerStatics_succ cfg initStatics _ 2 _ h2 (hr 2)
  have b0 : initStatics.buttons = ⟨0xFFFFFFFF, 0xFFFFFFFF⟩ := by decide
  obtain ⟨b1, p1⟩ := scenario_step cfg _ _ _ 0xFF (hr 0) rfl b0
  have b1' : debounce ⟨0xFFFFFFFF, 0xFFFFFFFF⟩ (notU32 0xFF) = ⟨0xFFFFFFFF, 0xFFFFFF00⟩ := by
    decide
  rw [b1'] at b1 p1
  obtain ⟨b2, p2⟩ := scenario_step cfg _ _ _ 0xFF (hr 1) rfl b1
  have b2' : debounce ⟨0xFFFFFFFF, 0xFFFFFF00⟩ (notU32 0xFF) = ⟨0xFFFFFF00, 0xFFFFFF00⟩ := by
    decide
  rw [b2'] at b2 p2
  obtain ⟨b3, p3⟩ := scenario_step cfg _ _ _ 0x00 (hr 2) rfl b2
  have b3' : debounce ⟨0xFFFFFF00, 0xFFFFFF00⟩ (notU32 0x00) = ⟨0xFFFFFF00, 0xFFFFFFFF⟩ := by
    decide
  rw [b3'] at b3 p3
  obtain ⟨b4, p4⟩ := scenario_step cfg _ _ _ 0x00 (hr 3) rfl b3
  have b4' : debounce ⟨0xFFFFFF00, 0xFFFFFFFF⟩ (notU32 0x00) = ⟨0xFFFFFFFF, 0xFFFFFFFF⟩ := by
    decide
  rw [b4'] at b4 p4
  exact ⟨_, _, _, _, samplerOutcome_eq cfg _ _ 0 _ h0, samplerOutcome_eq cfg _ _ 1 _ h1,
    samplerOutcome_eq cfg _ _ 2 _ h2, samplerOutcome_eq cfg _ _ 3 _ h3,
    b0, b1, p1, b2, p2, b3, p3, b4, p4, by decide⟩

/-- Counterexample for C7 as stated: in the third invocation of the scenario
no trigger event is posted, whether `0xFF, 0xFF, 0x00, 0x00` are the readings
of the port or the inverted readings the debouncer works on. -/
theorem debounce_scenario_third_invocation_silent :
    (¬ ∃ o, samplerOutcome (boardConfig 0) initStatics
        (scenarioInput (fun _ => 0) [0xFF, 0xFF, 0x00, 0x00]) 2 = some o ∧
        postsOf Signal.PLAYER_TRIGGER_SIG o.posts ≠ []) ∧
    (¬ ∃ o, samplerOutcome (boardConfig 0) initStatics
        (scenarioInput (fun _ => 0) [0xFFFFFF00, 0xFFFFFF00, 0xFFFFFFFF, 0xFFFFFFFF]) 2 = some o ∧
        postsOf Signal.PLAYER_TRIGGER_SIG o.posts ≠ []) := by
  have k1 : (samplerOutcome (boardConfig 0) initStatics
      (scenarioInput (fun _ => 0) [0xFF, 0xFF, 0x00, 0x00]) 2).map
        (fun o => postsOf Signal.PLAYER_TRIGGER_SIG o.posts) = some [] := by decide
  have k2 : (samplerOutcome (boardConfig 0) initStatics
      (scenarioInput (fun _ => 0) [0xFFFFFF00, 0xFFFFFF00, 0xFFFFFFFF, 0xFFFFFFFF]) 2).map
        (fun o => postsOf Signal.PLAYER_TRIGGER_SIG o.posts) = some [] := by decide
  constructor
  · rintro ⟨o, ho, hp⟩
    rw [ho] at k1
    simp only [Option.map_some', Option.some.injEq] at k1
    exact hp k1
  · rintro ⟨o, ho, hp⟩
    rw [ho] at k2
    simp only [Option.map_some', Option.some.injEq] at k2
    exact hp k2

/-! ## C8: a constant sample -/

/-- C8, as amended: for a constant sample `x` in `[0, 1023]`, data ready in
every invocation and a starting smoothed value in `[0, 1023]`, there is a value
`y` with `x - 3 ≤ y ≤ x + 4` such that after 41 invocations `adcLPS` equals
`y`, and every later invocation returns, leaves `adcLPS` at `y` and posts no
positioning event. -/
theorem constant_input_settles_within_dead_band (cfg : Config) (st : Statics)
    (inp : Nat → Regs) (x : Nat) (hx : x ≤ 1023) (hy : st.adcLPS ≤ 1023)
    (hready : ∀ k, dataReady (inp k) = true) (hin : ∀ k, (inp k).SSFIFO3 = x) :
    ∃ y, x ≤ y + 3 ∧ y ≤ x + 4 ∧
      ∀ n, 41 ≤ n → ∃ s o, samplerStatics cfg st inp n = some s ∧ s.adcLPS = y ∧
        samplerOutcome cfg st inp n = some o ∧ o.ending = Ending.returns ∧
        o.statics.adcLPS = y ∧ postsOf Signal.PLAYER_SHIP_MOVE_SIG o.posts = [] := by
  obtain ⟨s, hs, hb, hd⟩ := constant_input_invariant cfg st inp x hx hy hready hin 41
  have hd4 : deviation x s.adcLPS ≤ 4 := hd.trans (le_of_eq shrink_iterate_41)
  obtain ⟨h1, h2⟩ := deviation_near x _ hd4
  refine ⟨s.adcLPS, h1, h2, ?_⟩
  intro n hn
  obtain ⟨t, ht, he⟩ := constant_input_stays cfg st inp x hx hready hin 41 s hs hb hd4 (n - 41)
  have e : 41 + (n - 41) = n := by omega
  rw [e] at ht
  have hm : (inp n).SSFIFO3 % WORD = x := by
    rw [hin n]
    exact Nat.mod_eq_of_lt (by unfold WORD; omega)
  have hfix : lowPass x t.adcLPS = t.adcLPS := by
    rw [he]
    exact lowPass_fixed x _ hx hb hd4
  have hw : t.wheel = wheelPos cfg.BSP_SCREEN_HEIGHT t.adcLPS := by
    obtain ⟨j, hj⟩ : ∃ j, n = j + 1 := ⟨n - 1, by omega⟩
    subst hj
    exact wheel_after_invocation cfg st inp hready j t ht
  refine ⟨t, _, ht, he, samplerOutcome_eq cfg st inp n t ht, ending_ready cfg t _ (hready n),
    ?_, ?_⟩
  · rw [adcLPS_ready cfg t _ (hready n), hm, hfix, he]
  · rw [move_posts_ready cfg t _ (hready n), hm, hfix, if_neg]
    simp [hw]

/-- Witness for C8: the constant sample 1023 from the initial state. -/
theorem constant_input_settles_within_dead_band_witness :
    (1023 : Nat) ≤ 1023 ∧ initStatics.adcLPS ≤ 1023 ∧
    ∃ y, 1023 ≤ y + 3 ∧ y ≤ 1023 + 4 ∧
      ∀ n, 41 ≤ n → ∃ s o,
        samplerStatics (boardConfig 0) initStatics (fun _ => ⟨0, 1023, 0⟩) n = some s ∧
        s.adcLPS = y ∧
        samplerOutcome (boardConfig 0) initStatics (fun _ => ⟨0, 1023, 0⟩) n = some o ∧
        o.ending = Ending.returns ∧
        o.statics.adcLPS = y ∧ postsOf Signal.PLAYER_SHIP_MOVE_SIG o.posts = [] :=
  ⟨by decide, by decide,
    constant_input_settles_within_dead_band (boardConfig 0) initStatics
      (fun _ => ⟨0, 1023, 0⟩) 1023 (by decide) (by decide)
      (fun _ => (by decide : dataReady (⟨0, 1023, 0⟩ : Regs) = true)) (fun _ => rfl)⟩

/-- Counterexample for C8 as stated: with the constant sample 1 from the
initial state the smoothed value is 0 after every number of invocations; it
never equals the sample. -/
theorem constant_input_one_never_reached :
    ¬ ∃ N : Nat, ∀ n, N ≤ n → ∃ s,
      samplerStatics (boardConfig 0) initStatics (fun _ => ⟨0, 1, 0⟩) n = some s ∧
        s.adcLPS = 1 := by
  rintro ⟨N, h⟩
  obtain ⟨s, hs, h1⟩ := h N (le_refl N)
  have hr : dataReady (⟨0, 1, 0⟩ : Regs) = true := by decide
  have step : ∀ s : Statics, s.adcLPS = 0 →
      (ADCSeq3_IRQHandler (boardConfig 0) s ⟨0, 1, 0⟩).statics.adcLPS = 0 := by
    intro s hp
    rw [adcLPS_ready (boardConfig 0) s _ hr, hp]
    decide
  obtain ⟨t, ht, h0⟩ := samplerStatics_invariant (boardConfig 0) initStatics
    (fun _ => ⟨0, 1, 0⟩) (fun s => s.adcLPS = 0)
    (fun _ => hr) rfl (by intro s _ hp; beta_reduce; exact step s hp) N
  rw [hs] at ht
  cases ht
  omega

/-! ## C9: priorities set at start-up -/

/-- C9, evaluated on the code: after `QF_onStartup` the source
`GPIOPortA_IRQn` is enabled and no call of `NVIC_SetPriority` has given it a
priority (whatever it was before is untouched), while `ADCSeq3_IRQn` and
`SysTick_IRQn` have the priorities `ADCSEQ3_PRIO` and `SYSTICK_PRIO`. -/
theorem startup_leaves_gpioPortA_without_priority (qfAwarePri : Nat) :
    (QF_onStartup qfAwarePri resetNvic).enabled IRQn.GPIOPortA_IRQn = true ∧
    (QF_onStartup qfAwarePri resetNvic).setPriority IRQn.GPIOPortA_IRQn = none ∧
    (QF_onStartup qfAwarePri resetNvic).setPriority IRQn.ADCSeq3_IRQn =
      some ( ADCSEQ3_PRIO qfAwarePri) ∧
    (QF_onStartup qfAwarePri resetNvic).setPriority IRQn.SysTick_IRQn =
      some ( SYSTICK_PRIO qfAwarePri) ∧
    (QF_onStartup qfAwarePri resetNvic).enabled IRQn.ADCSeq3_IRQn = true ∧
    (QF_onStartup qfAwarePri resetNvic).enabled IRQn.SysTick_IRQn = true ∧
    (∀ v : Nvic, (QF_onStartup qfAwarePri v).setPriority IRQn.GPIOPortA_IRQn =
      v.setPriority IRQn.GPIOPortA_IRQn) := by
  refine ⟨rfl, rfl, rfl, rfl, rfl, rfl, fun v => rfl⟩

/-! ## C10: an empty FIFO ends in a reset -/

/-- C10: when the flag `ADC_SSFSTAT0_EMPTY` of `SSFSTAT3` is set the invocation
ends in `Q_onAssert`, which resets the system; no event is posted, the static
variables keep their values and the run of invocations ends there. When the
flag is clear the invocation returns. -/
theorem empty_fifo_resets_without_effect (cfg : Config) (st : Statics) (r : Regs) :
    ((r.SSFSTAT3 % WORD) &&& ADC_SSFSTAT0_EMPTY ≠ 0 →
      (ADCSeq3_IRQHandler cfg st r).ending = Q_onAssert ASSERT_LINE ∧
      Q_onAssert ASSERT_LINE = Ending.systemReset ASSERT_LINE ∧
      (ADCSeq3_IRQHandler cfg st r).posts = [] ∧
      (ADCSeq3_IRQHandler cfg st r).statics = st ∧
      (∀ (s0 : Statics) (inp : Nat → Regs) (n : Nat),
        samplerStatics cfg s0 inp n = some st → inp n = r →
        samplerStatics cfg s0 inp (n + 1) = none)) ∧
    ((r.SSFSTAT3 % WORD) &&& ADC_SSFSTAT0_EMPTY = 0 →
      (ADCSeq3_IRQHandler cfg st r).ending = Ending.returns) := by
  constructor
  · intro h
    have hr : dataReady r = false := by
      unfold dataReady
      simpa using h
    rw [handler_not_ready cfg st r hr]
    refine ⟨rfl, rfl, rfl, rfl, ?_⟩
    intro s0 inp n hs hin
    subst hin
    simp only [samplerStatics, hs, handler_not_ready cfg st _ hr]
  · intro h
    have hr : dataReady r = true := by
      unfold dataReady
      simpa using h
    exact ending_ready cfg st r hr

/-- Witness for C10: the status `0x100` (flag set) and the status 0. -/
theorem empty_fifo_resets_without_effect_witness :
    ((0x100 : Nat) % WORD) &&& ADC_SSFSTAT0_EMPTY ≠ 0 ∧
    (ADCSeq3_IRQHandler (boardConfig 0) initStatics ⟨0x100, 1023, 0⟩).posts = [] ∧
    (ADCSeq3_IRQHandler (boardConfig 0) initStatics ⟨0x100, 1023, 0⟩).statics = initStatics ∧
    ((0 : Nat) % WORD) &&& ADC_SSFSTAT0_EMPTY = 0 ∧
    (ADCSeq3_IRQHandler (boardConfig 0) initStatics ⟨0, 1023, 0⟩).ending = Ending.returns :=
  ⟨by decide,
    ((empty_fifo_resets_without_effect (boardConfig 0) initStatics ⟨0x100, 1023, 0⟩).1
      (by decide)).2.2.1,
    ((empty_fifo_resets_without_effect (boardConfig 0) initStatics ⟨0x100, 1023, 0⟩).1
      (by decide)).2.2.2.1,
    by decide,
    (empty_fifo_resets_without_effect (boardConfig 0) initStatics ⟨0, 1023, 0⟩).2 (by decide)⟩

end Bsp
